import Mathlib

/-!
Shallow embedding of the name-attribution core of `api_cabildo.py`
(speaker-mapping subsystem of the cabildo transcription service).

Texts are modelled as `String` (Lean `Char` = Unicode code point, matching
Python's `str` of code points).  The regular-expression patterns of
`PATRONES_CESION` are embedded as an abstract syntax tree `RE` together with
a continuation-passing backtracking matcher `mtch` that reproduces Python
`re`'s leftmost search, ordered alternation and greedy quantifiers.  All
searches in the source are performed with `re.IGNORECASE`
(`re.search(patron, text, re.IGNORECASE)`, line 253), so every literal and
character class is embedded in its case-insensitive form; case folding is
modelled on the alphabet actually used by the lexicons and patterns
(ASCII letters plus áéíóúñü and their upper-case forms).
-/

namespace Cabildo

/-- Lower-case a character, modelling Python `str.lower` on the alphabet
used by the lexicons and patterns (ASCII plus Spanish accented letters). -/
def toLowerEs (c : Char) : Char :=
  if 'A' ≤ c && c ≤ 'Z' then Char.ofNat (c.toNat + 32)
  else if c = 'Á' then 'á'
  else if c = 'É' then 'é'
  else if c = 'Í' then 'í'
  else if c = 'Ó' then 'ó'
  else if c = 'Ú' then 'ú'
  else if c = 'Ñ' then 'ñ'
  else if c = 'Ü' then 'ü'
  else c

/-- Swap the case of a character (same alphabet as `toLowerEs`); used to
model how `re.IGNORECASE` makes a character class accept both cases. -/
def swapCaseEs (c : Char) : Char :=
  if 'A' ≤ c && c ≤ 'Z' then Char.ofNat (c.toNat + 32)
  else if 'a' ≤ c && c ≤ 'z' then Char.ofNat (c.toNat - 32)
  else if c = 'Á' then 'á'
  else if c = 'É' then 'é'
  else if c = 'Í' then 'í'
  else if c = 'Ó' then 'ó'
  else if c = 'Ú' then 'ú'
  else if c = 'Ñ' then 'ñ'
  else if c = 'Ü' then 'ü'
  else if c = 'á' then 'Á'
  else if c = 'é' then 'É'
  else if c = 'í' then 'Í'
  else if c = 'ó' then 'Ó'
  else if c = 'ú' then 'Ú'
  else if c = 'ñ' then 'Ñ'
  else if c = 'ü' then 'Ü'
  else c

/-- Python's `\s` on the characters that can occur here. -/
def isSpaceRe (c : Char) : Bool :=
  c = ' ' || c = '\t' || c = '\n' || c = '\r' ||
  c = Char.ofNat 11 || c = Char.ofNat 12

/-- The character class `[A-ZÁÉÍÓÚÑ]` of `_NOM`, case-sensitively. -/
def mayusNom (c : Char) : Bool :=
  ('A' ≤ c && c ≤ 'Z') || c = 'Á' || c = 'É' || c = 'Í' || c = 'Ó' ||
  c = 'Ú' || c = 'Ñ'

/-- The character class `[a-záéíóúñ]` of `_NOM`, case-sensitively. -/
def minusNom (c : Char) : Bool :=
  ('a' ≤ c && c ≤ 'z') || c = 'á' || c = 'é' || c = 'í' || c = 'ó' ||
  c = 'ú' || c = 'ñ'

/-- `re.IGNORECASE` applied to a character class: a character matches when
it or its case-swapped form is in the class. -/
def ignClass (p : Char → Bool) (c : Char) : Bool :=
  p c || p (swapCaseEs c)

/-- Regular-expression abstract syntax, covering the constructs used by
`PATRONES_CESION`: character classes, greedy `+` and `*` on classes,
concatenation, ordered alternation, greedy `?`, and capture group 1. -/
inductive RE where
  | eps : RE
  | cls (p : Char → Bool) : RE
  | plusCls (p : Char → Bool) : RE
  | starCls (p : Char → Bool) : RE
  | seq (a b : RE) : RE
  | alt (a b : RE) : RE
  | opt (a : RE) : RE
  | grp (a : RE) : RE

/-- The value of capture group 1, when the group participated in the match. -/
abbrev Found := Option (List Char)

/-- Try the continuation after consuming `i` characters of `s`, for
`i = n, n-1, …, 1` (greedy backtracking for a `+` over a class). -/
def tryFrom (s : List Char) (cap : Found)
    (k : List Char → Found → Option Found) : Nat → Option Found
  | 0 => none
  | n + 1 => (k (s.drop (n + 1)) cap).orElse (fun _ => tryFrom s cap k n)

/-- As `tryFrom`, but also trying `i = 0` (greedy `*` over a class). -/
def tryFrom0 (s : List Char) (cap : Found)
    (k : List Char → Found → Option Found) : Nat → Option Found
  | 0 => k s cap
  | n + 1 => (k (s.drop (n + 1)) cap).orElse (fun _ => tryFrom0 s cap k n)

/-- Backtracking matcher in continuation-passing style.  `mtch r s cap k`
attempts to match `r` at the start of `s`; on success it calls `k` with the
remaining input and the current value of capture group 1.  Ordered
alternation and greedy quantifiers reproduce Python `re`'s strategy. -/
def mtch : RE → List Char → Found → (List Char → Found → Option Found) →
    Option Found
  | .eps, s, cap, k => k s cap
  | .cls p, s, cap, k =>
      match s with
      | [] => none
      | c :: rest => if p c then k rest cap else none
  | .plusCls p, s, cap, k => tryFrom s cap k (s.takeWhile p).length
  | .starCls p, s, cap, k => tryFrom0 s cap k (s.takeWhile p).length
  | .seq a b, s, cap, k => mtch a s cap (fun s2 c2 => mtch b s2 c2 k)
  | .alt a b, s, cap, k => (mtch a s cap k).orElse (fun _ => mtch b s cap k)
  | .opt a, s, cap, k => (mtch a s cap k).orElse (fun _ => k s cap)
  | .grp a, s, cap, k =>
      mtch a s cap (fun s2 _ => k s2 (some (s.take (s.length - s2.length))))

/-- `re.search`: try a match at every start position, leftmost first;
return the value of capture group 1 of the first match. -/
def reSearch (r : RE) : List Char → Option Found
  | [] => mtch r [] none (fun _ cap => some cap)
  | c :: rest =>
      match mtch r (c :: rest) none (fun _ cap => some cap) with
      | some f => some f
      | none => reSearch r rest

/-- Concatenation of a list of regexes. -/
def sq (l : List RE) : RE := l.foldr .seq .eps

/-- Ordered alternation `a|b|…` over a nonempty list (first alternative
tried first, as in Python). -/
def altList : List RE → RE
  | [] => .eps
  | r :: rs => rs.foldl .alt r

/-- A literal character under `re.IGNORECASE`. -/
def litCI (c : Char) : RE := .cls (fun x => toLowerEs x = toLowerEs c)

/-- A literal string under `re.IGNORECASE`. -/
def strCI (s : String) : RE := sq (s.data.map litCI)

/-- `\s+` -/
def sp1 : RE := .plusCls isSpaceRe

/-- `\s*` -/
def sp0 : RE := .starCls isSpaceRe

/-- Greedy bounded repetition `r{0,3}`, as nested greedy options. -/
def rep3 (r : RE) : RE := .opt (.seq r (.opt (.seq r (.opt r))))

/-! ## Lexicon Store (`STOP_WORDS`, `APELLIDOS`, `NOMBRES_PROPIOS`) -/

/-- Words that never form part of a person's name (source lines 147–158). -/
def STOP_WORDS : List String :=
  ["municipal", "constitucional", "general", "jurídico", "jurídica",
   "hacendario", "hacendaria", "ordinaria", "extraordinaria", "honorable",
   "secretaria", "secretario", "para", "que", "los", "las", "del", "de",
   "la", "el", "comentar", "informar", "brindar", "sugiere", "propone",
   "comenta", "señora", "señor", "ciudadana", "ciudadano", "este", "esta",
   "iniciativa", "reglamento", "sesión", "cabildo", "agua", "potable",
   "organismo", "administración", "comisión", "fraccionamientos", "cargo",
   "carácter", "efecto", "objeto", "manera", "forma", "parte", "caso",
   "orden", "día", "punto", "acta", "anterior", "lectura", "siguiente",
   "presente", "presidenta", "presidente", "moderadora", "moderador"]

/-- Common Mexican surnames (source lines 161–169). -/
def APELLIDOS : List String :=
  ["García", "González", "Hernández", "López", "Martínez", "Pérez",
   "Ramírez", "Rodríguez", "Sánchez", "Torres", "Flores", "Rivera",
   "Gómez", "Díaz", "Reyes", "Cruz", "Morales", "Jiménez", "Gutiérrez",
   "Chávez", "Medrano", "Miranda", "Tobar", "Mendoza", "Velázquez",
   "Cornejo", "Larios", "Altamirano", "Godínez", "Ayala", "Salazar",
   "Ángeles", "Hurtado", "Monterrubio", "Zelayno", "Fuentes", "Cortés",
   "Quadrini", "Medina", "León", "Celerino", "Fernández"]

/-- Frequent given names (source lines 172–178). -/
def NOMBRES_PROPIOS : List String :=
  ["Jocelyn", "María", "Isabel", "Jaime", "Eugenio", "Rosario", "Jesús",
   "Arturo", "Jennifer", "César", "Belinda", "Edgar", "Lisette", "Fidel",
   "Sadi", "Yanis", "Melitón", "Adelir", "Rubí", "Eva", "Marta", "Delia",
   "Osvaldo", "Antonio", "Enrique", "Juan", "Alberto", "José", "Manuel",
   "Yeri", "Axili", "Aksidy", "Paola", "Rogelio", "Fernanda", "Higinio"]

/-! ## Pattern Matcher (`_NOM`, `PATRONES_CESION`)

All patterns are compiled here already under `re.IGNORECASE`, since every
`re.search` in the source passes that flag. -/

/-- One further name word of `_NOM`:
`\s+(?:de\s+|del\s+|la\s+)?[A-ZÁÉÍÓÚÑ][a-záéíóúñ]+`. -/
def nomWord : RE :=
  sq [sp1,
      .opt (altList [sq [strCI "de", sp1], sq [strCI "del", sp1],
                     sq [strCI "la", sp1]]),
      .cls (ignClass mayusNom), .plusCls (ignClass minusNom)]

/-- `_NOM` (source line 181): the capture group
`([A-ZÁÉÍÓÚÑ][a-záéíóúñ]+(?:\s+(?:de\s+|del\s+|la\s+)?[A-ZÁÉÍÓÚÑ][a-záéíóúñ]+){0,3})`. -/
def _NOM : RE :=
  .grp (sq [.cls (ignClass mayusNom), .plusCls (ignClass minusNom),
            rep3 nomWord])

/-- Pattern 1: `(?:hace?\s+uso\s+de\s+la\s+voz|uso\s+de\s+la\s+voz)\s+(?:de\s+)?(?:el|la)?\s*(role…)?\s*_NOM`. -/
def PATRON_USO_VOZ : RE :=
  sq [altList
        [sq [strCI "hac", .opt (litCI 'e'), sp1, strCI "uso", sp1,
             strCI "de", sp1, strCI "la", sp1, strCI "voz"],
         sq [strCI "uso", sp1, strCI "de", sp1, strCI "la", sp1,
             strCI "voz"]],
      sp1,
      .opt (sq [strCI "de", sp1]),
      .opt (altList [strCI "el", strCI "la"]),
      sp0,
      .opt (altList [strCI "regidor", strCI "regidora", strCI "síndico",
                     strCI "síndica", strCI "secretaria", strCI "secretario",
                     strCI "presidente", strCI "presidenta",
                     strCI "ingeniero", strCI "ingeniera",
                     strCI "licenciado", strCI "licenciada", strCI "doctor",
                     strCI "doctora", strCI "coordinadora", strCI "director",
                     strCI "directora", strCI "profesor", strCI "profesora"]),
      sp0, _NOM]

/-- Pattern 2: `solicita?\s+(?:el\s+)?uso\s+de\s+(?:la\s+)?voz\s+(?:la|el)?\s*(role…)?\s*_NOM`. -/
def PATRON_SOLICITA : RE :=
  sq [strCI "solicit", .opt (litCI 'a'), sp1,
      .opt (sq [strCI "el", sp1]),
      strCI "uso", sp1, strCI "de", sp1,
      .opt (sq [strCI "la", sp1]),
      strCI "voz", sp1,
      .opt (altList [strCI "la", strCI "el"]),
      sp0,
      .opt (altList [strCI "regidor", strCI "regidora", strCI "síndico",
                     strCI "síndica", strCI "secretaria",
                     strCI "presidenta", strCI "presidente"]),
      sp0, _NOM]

/-- Pattern 3: `cede?\s+(?:la\s+)?palabra\s+(?:a|al|a\s+la)?\s*_NOM`. -/
def PATRON_CEDE : RE :=
  sq [strCI "ced", .opt (litCI 'e'), sp1,
      .opt (sq [strCI "la", sp1]),
      strCI "palabra", sp1,
      .opt (altList [strCI "a", strCI "al", sq [strCI "a", sp1, strCI "la"]]),
      sp0, _NOM]

/-- Pattern 4: `(?:regidor|regidora)\s+(?:[A-ZÁÉÍÓÚÑ][a-záéíóúñ]+\s+)?_NOM`. -/
def PATRON_REGIDOR : RE :=
  sq [altList [strCI "regidor", strCI "regidora"], sp1,
      .opt (sq [.cls (ignClass mayusNom), .plusCls (ignClass minusNom), sp1]),
      _NOM]

/-- Pattern 5: `(?:síndico|síndica)\s+(?:jurídico|jurídica|hacendario|hacendaria)\s+_NOM`. -/
def PATRON_SINDICO : RE :=
  sq [altList [strCI "síndico", strCI "síndica"], sp1,
      altList [strCI "jurídico", strCI "jurídica", strCI "hacendario",
               strCI "hacendaria"],
      sp1, _NOM]

/-- Pattern 6: `(?:ingeniero|ingeniera|licenciado|licenciada|doctor|doctora|profesor|profesora)\s+_NOM`. -/
def PATRON_TITULO : RE :=
  sq [altList [strCI "ingeniero", strCI "ingeniera", strCI "licenciado",
               strCI "licenciada", strCI "doctor", strCI "doctora",
               strCI "profesor", strCI "profesora"],
      sp1, _NOM]

/-- `PATRONES_CESION` (source lines 184–211), most specific first. -/
def PATRONES_CESION : List RE :=
  [PATRON_USO_VOZ, PATRON_SOLICITA, PATRON_CEDE, PATRON_REGIDOR,
   PATRON_SINDICO, PATRON_TITULO]

/-! ## Name Validator (`_es_nombre_real`) -/

/-- Python `str.strip()`: drop leading and trailing whitespace. -/
def stripWs (s : List Char) : List Char :=
  ((s.dropWhile isSpaceRe).reverse.dropWhile isSpaceRe).reverse

/-- Helper for `pySplit`: accumulate the current word (reversed). -/
def splitWsAux : List Char → List Char → List String
  | [], acc => if acc.isEmpty then [] else [String.mk acc.reverse]
  | c :: cs, acc =>
      if isSpaceRe c then
        if acc.isEmpty then splitWsAux cs []
        else String.mk acc.reverse :: splitWsAux cs []
      else splitWsAux cs (c :: acc)

/-- Python `str.split()` with no argument: split on whitespace runs,
discarding empty pieces (so leading/trailing whitespace is ignored). -/
def pySplit (s : String) : List String := splitWsAux s.data []

/-- Python `str.lower()` (on the alphabet in play here). -/
def lowerStr (s : String) : String := String.mk (s.data.map toLowerEs)

/-- `_es_nombre_real` (source lines 214–233): word count must be 1–5, no
word may lower-case to a stop word, and at least one word must be a known
surname or given name (exact case). -/
def _es_nombre_real (texto : String) : Bool :=
  let palabras := pySplit texto
  if palabras.length > 5 || palabras.length == 0 then false
  else if palabras.any (fun p => STOP_WORDS.contains (lowerStr p)) then false
  else
    palabras.any (fun p => APELLIDOS.contains p) ||
    palabras.any (fun p => NOMBRES_PROPIOS.contains p)

/-! ## Speaker Mapper (`extract_speaker_names_from_entities`) -/

/-- `match.group(1).strip()` of `re.search(patron, text, re.IGNORECASE)`:
`none` when the pattern does not match anywhere in the text.  (Group 1 is
mandatory in every pattern of `PATRONES_CESION`, so a match always carries
a capture; the `some none` case below is unreachable.) -/
def searchGroup1 (r : RE) (text : String) : Option String :=
  match reSearch r text.data with
  | some (some cap) => some (String.mk (stripWs cap))
  | some none => none
  | none => none

/-- The speaker mapping, as an insertion-ordered association list (Python
`dict` keeps insertion order; updating an existing key keeps its place). -/
abbrev SMap := List (String × String)

/-- Dictionary lookup. -/
def lookupM : SMap → String → Option String
  | [], _ => none
  | kv :: rest, k => if kv.1 = k then some kv.2 else lookupM rest k

/-- Dictionary update `m[k] = v`. -/
def setM : SMap → String → String → SMap
  | [], k, v => [(k, v)]
  | kv :: rest, k, v =>
      if kv.1 = k then (k, v) :: rest else kv :: setM rest k v

/-- The in-loop assignment (source lines 267–269): write the candidate when
the target speaker is unmapped or its current name is strictly shorter. -/
def assignOne (m : SMap) (next_speaker nombre_raw : String) : SMap :=
  match lookupM m next_speaker with
  | none => setM m next_speaker nombre_raw
  | some old =>
      if old.length < nombre_raw.length then setM m next_speaker nombre_raw
      else m

/-- The inner pattern loop of `extract_speaker_names_from_entities`
(source lines 252–270) for one utterance whose next speaker exists:
for each pattern, search, validate, and assign to the next speaker. -/
def procesaPatrones (text : String) (next_speaker : String) (m : SMap) :
    SMap :=
  PATRONES_CESION.foldl
    (fun m patron =>
      match searchGroup1 patron text with
      | none => m
      | some nombre_raw =>
          if _es_nombre_real nombre_raw then assignOne m next_speaker nombre_raw
          else m)
    m

/-- An utterance record with both mandatory fields present (spec §3). -/
structure Utterance where
  speaker : String
  text : String
deriving DecidableEq, Repr

/-- The utterance loop: each utterance is scanned and its candidates are
assigned to the speaker of the following utterance; the last utterance has
no follower, so its candidates are discarded (`i + 1 < len(utterances)`,
source line 264) and processing it has no effect on the mapping. -/
def extractGo : List Utterance → SMap → SMap
  | u :: next :: rest, m =>
      extractGo (next :: rest) (procesaPatrones u.text next.speaker m)
  | _, m => m

/-- `extract_speaker_names_from_entities` (source lines 236–272).  The
`entities` argument is accepted and never read, exactly as in the source. -/
def extract_speaker_names_from_entities {α : Type}
    (utterances : List Utterance) (entities : List α) : SMap :=
  extractGo utterances []

/-! ## Transcript Formatter and payload -/

/-- `format_transcript_with_speakers` (source lines 275–282). -/
def format_transcript_with_speakers (utterances : List Utterance)
    (speaker_mapping : SMap) : String :=
  String.intercalate "\n\n"
    (utterances.map (fun u =>
      (lookupM speaker_mapping u.speaker).getD ("Speaker " ++ u.speaker) ++
        ": " ++ u.text))

/-- The three values `build_success_payload` (source lines 285–293) adds to
the raw result. -/
structure Payload where
  speaker_mapping : SMap
  formatted_text : String
  total_speakers : Nat
deriving DecidableEq, Repr

/-- `build_success_payload`, restricted to the three computed fields. -/
def build_success_payload {α : Type} (utterances : List Utterance)
    (entities : List α) : Payload :=
  let speaker_mapping := extract_speaker_names_from_entities utterances entities
  { speaker_mapping := speaker_mapping
    formatted_text := format_transcript_with_speakers utterances speaker_mapping
    total_speakers := (utterances.map (·.speaker)).dedup.length }

/-! ## Raw utterance records

The service receives utterance dictionaries from the transcription
provider; a field can be absent.  `RawUtt` models such a record with
`Option` fields.  The source reads fields in two different ways:
`utterance.get('speaker', '')` / `.get('text', '')` silently substitute a
default, while `utterances[i + 1]['speaker']` (line 265) and
`u['speaker']` (line 292) raise a `KeyError` when the key is missing.
`Except String` models the raising accesses. -/
structure RawUtt where
  speaker : Option String
  text : Option String
deriving DecidableEq, Repr

/-- The inner pattern loop on a raw record: the candidate text comes from
`utterance.get('text', '')`; the assignment reads the next record with
`utterances[i + 1]['speaker']`, which raises when the key is missing —
but only once a validated candidate actually reaches the assignment. -/
def rawProcesa (text : String) (next : RawUtt) (m : SMap) :
    Except String SMap :=
  PATRONES_CESION.foldlM
    (fun m patron =>
      match searchGroup1 patron text with
      | none => Except.ok m
      | some nombre_raw =>
          if _es_nombre_real nombre_raw then
            match next.speaker with
            | none => Except.error "KeyError: speaker"
            | some next_speaker =>
                Except.ok (assignOne m next_speaker nombre_raw)
          else Except.ok m)
    m

/-- The utterance loop over raw records. -/
def rawExtractGo : List RawUtt → SMap → Except String SMap
  | u :: next :: rest, m => do
      let m2 ← rawProcesa (u.text.getD "") next m
      rawExtractGo (next :: rest) m2
  | _, m => Except.ok m

/-- `extract_speaker_names_from_entities` on raw records: a record with a
missing field is processed with the `.get` defaults, never reported;
only the `[...]`-style access of the next speaker can raise, and then
with a bare `KeyError`, not a "malformed utterance" error. -/
def rawExtract {α : Type} (utterances : List RawUtt) (entities : List α) :
    Except String SMap :=
  rawExtractGo utterances []

/-- `format_transcript_with_speakers` on raw records: missing fields are
silently defaulted (`.get('speaker', '?')`, `.get('text', '')`). -/
def rawFormat (utterances : List RawUtt) (speaker_mapping : SMap) : String :=
  String.intercalate "\n\n"
    (utterances.map (fun u =>
      let sid := u.speaker.getD "?"
      (lookupM speaker_mapping sid).getD ("Speaker " ++ sid) ++ ": " ++
        u.text.getD ""))

/-- `len(set(u['speaker'] for u in utterances))` (source line 292): the
`[...]` access raises a bare `KeyError` at the first record missing its
speaker field. -/
def rawTotalSpeakers (utterances : List RawUtt) : Except String Nat := do
  let speakers ← utterances.mapM (fun u =>
    match u.speaker with
    | some s => Except.ok s
    | none => Except.error "KeyError: speaker")
  pure speakers.dedup.length

/-! ## Derived notions used to state the claims -/

/-- The validated candidates one utterance text yields, in pattern order:
for each pattern of `PATRONES_CESION`, the (stripped) capture of its first
match, kept when `_es_nombre_real` accepts it. -/
def validCands (text : String) : List String :=
  (PATRONES_CESION.filterMap (fun p => searchGroup1 p text)).filter
    (fun n => _es_nombre_real n)

/-- All (target speaker, name) pairs a transcript produces, in discovery
order: utterance `i` is paired with the speaker of utterance `i + 1`
(so the last utterance contributes nothing). -/
def candidatePairs (utts : List Utterance) : List (String × String) :=
  (utts.zip utts.tail).flatMap
    (fun uv => (validCands uv.1.text).map (fun n => (uv.2.speaker, n)))

/-- The names of the valid candidates that target speaker `s`, in
discovery order. -/
def namesTargeting (utts : List Utterance) (s : String) : List String :=
  (candidatePairs utts).filterMap
    (fun c => if c.1 = s then some c.2 else none)

/-- The first element of maximal length of a list of strings (`none` for
the empty list): the textually longest candidate, earlier one on ties. -/
def argmaxEarliest (ns : List String) : Option String :=
  ns.find? (fun n => ns.all (fun n2 => n2.length ≤ n.length))

/-- The conflict-resolution rule as a left fold over a candidate list,
starting from an optional current name. -/
def bestAux (acc : Option String) : List String → Option String
  | [] => acc
  | n :: ns =>
      bestAux
        (match acc with
         | none => some n
         | some old => if old.length < n.length then some n else some old)
        ns

/-- `assignOne` written on (target, name) pairs. -/
def assignPair (m : SMap) (c : String × String) : SMap :=
  assignOne m c.1 c.2

/-! ## Lemmas about the mapping operations -/

theorem lookupM_setM_self (m : SMap) (k v : String) :
    lookupM (setM m k v) k = some v := by
  induction m with
  | nil => simp [setM, lookupM]
  | cons kv rest ih =>
      by_cases h : kv.1 = k
      · simp [setM, lookupM, h]
      · simp [setM, lookupM, h, ih]

theorem lookupM_setM_ne (m : SMap) (k v : String) (s : String) (h : s ≠ k) :
    lookupM (setM m k v) s = lookupM m s := by
  have hks : ¬ k = s := fun hh => h hh.symm
  induction m with
  | nil => simp [setM, lookupM, hks]
  | cons kv rest ih =>
      by_cases hk : kv.1 = k
      · subst hk
        simp only [setM, if_pos rfl, lookupM]
        rw [if_neg hks, if_neg hks]
      · simp only [setM, if_neg hk, lookupM]
        by_cases hs : kv.1 = s <;> simp [hs, ih]

theorem lookupM_assignOne_self (m : SMap) (t n : String) :
    lookupM (assignOne m t n) t =
      match lookupM m t with
      | none => some n
      | some old => if old.length < n.length then some n else some old := by
  unfold assignOne
  cases h : lookupM m t with
  | none => simp [lookupM_setM_self]
  | some old =>
      by_cases hl : old.length < n.length
      · simp [hl, lookupM_setM_self]
      · simp [hl, h]

theorem lookupM_assignOne_ne (m : SMap) (t n s : String) (h : s ≠ t) :
    lookupM (assignOne m t n) s = lookupM m s := by
  unfold assignOne
  cases lookupM m t with
  | none => exact lookupM_setM_ne m t n s h
  | some old =>
      by_cases hl : old.length < n.length
      · simp [hl, lookupM_setM_ne m t n s h]
      · simp [hl]

/-! ## The pattern loop as a fold over the candidate list -/

theorem foldl_patterns_eq (text spk : String) (l : List RE) :
    ∀ m : SMap,
      l.foldl
        (fun m patron =>
          match searchGroup1 patron text with
          | none => m
          | some nombre_raw =>
              if _es_nombre_real nombre_raw then assignOne m spk nombre_raw
              else m)
        m =
      (((l.filterMap (fun p => searchGroup1 p text)).filter
          (fun n => _es_nombre_real n)).foldl
        (fun m n => assignOne m spk n) m) := by
  induction l with
  | nil => intro m; rfl
  | cons p l ih =>
      intro m
      cases hs : searchGroup1 p text with
      | none => simp [List.foldl_cons, hs, List.filterMap_cons, ih]
      | some nom =>
          by_cases hv : _es_nombre_real nom = true
          · simp [List.foldl_cons, hs, hv, List.filterMap_cons,
                  List.filter_cons, ih]
          · simp only [Bool.not_eq_true] at hv
            simp [List.foldl_cons, hs, hv, List.filterMap_cons,
                  List.filter_cons, ih]

theorem procesaPatrones_eq_foldl (text spk : String) (m : SMap) :
    procesaPatrones text spk m =
      (validCands text).foldl (fun m n => assignOne m spk n) m :=
  foldl_patterns_eq text spk PATRONES_CESION m

theorem extractGo_eq_foldl (utts : List Utterance) :
    ∀ m : SMap, extractGo utts m = (candidatePairs utts).foldl assignPair m := by
  induction utts with
  | nil => intro m; rfl
  | cons u rest ih =>
      intro m
      cases rest with
      | nil => rfl
      | cons next rest2 =>
          show extractGo (next :: rest2) (procesaPatrones u.text next.speaker m) = _
          rw [ih]
          have hcp : candidatePairs (u :: next :: rest2) =
              ((validCands u.text).map (fun n => (next.speaker, n))) ++
                candidatePairs (next :: rest2) := by
            simp [candidatePairs]
          rw [hcp, List.foldl_append]
          congr 1
          rw [procesaPatrones_eq_foldl, List.foldl_map]
          rfl

theorem extract_eq_foldl_pairs {α : Type} (utts : List Utterance)
    (es : List α) :
    extract_speaker_names_from_entities utts es =
      (candidatePairs utts).foldl assignPair [] :=
  extractGo_eq_foldl utts []

/-! ## The fold computes, per speaker, the longest-candidate rule -/

theorem lookupM_foldl_assignPair (cs : List (String × String)) :
    ∀ (m : SMap) (s : String),
      lookupM (cs.foldl assignPair m) s =
        bestAux (lookupM m s)
          (cs.filterMap (fun c => if c.1 = s then some c.2 else none)) := by
  induction cs with
  | nil => intro m s; rfl
  | cons c cs ih =>
      intro m s
      obtain ⟨t, n⟩ := c
      by_cases hts : t = s
      · subst hts
        simp only [List.foldl_cons, List.filterMap_cons, if_pos rfl]
        rw [ih]
        have : lookupM (assignPair m (t, n)) t =
            match lookupM m t with
            | none => some n
            | some old => if old.length < n.length then some n else some old :=
          lookupM_assignOne_self m t n
        rw [this]
        cases lookupM m t with
        | none => rfl
        | some old => by_cases hl : old.length < n.length <;> simp [hl, bestAux]
      · simp only [List.foldl_cons, List.filterMap_cons, if_neg hts]
        rw [ih]
        have h2 : lookupM (assignPair m (t, n)) s = lookupM m s :=
          lookupM_assignOne_ne m t n s (fun h => hts h.symm)
        rw [h2]

theorem argmaxEarliest_merge (b n : String) (ns : List String) :
    argmaxEarliest (b :: n :: ns) =
      argmaxEarliest ((if b.length < n.length then n else b) :: ns) := by
  by_cases hl : b.length < n.length
  · rw [if_pos hl]
    unfold argmaxEarliest
    have hpq :
        (fun x : String => (b :: n :: ns).all (fun n2 => n2.length ≤ x.length))
          = fun x : String => (n :: ns).all (fun n2 => n2.length ≤ x.length) := by
      funext x
      simp only [List.all_cons]
      cases hq : (decide (n.length ≤ x.length) &&
          ns.all fun n2 => decide (n2.length ≤ x.length)) with
      | false => rw [Bool.and_false]
      | true =>
          have hn : n.length ≤ x.length :=
            of_decide_eq_true ((Bool.and_eq_true _ _).mp hq).1
          have hbx : b.length ≤ x.length := Nat.le_of_lt (Nat.lt_of_lt_of_le hl hn)
          rw [Bool.and_true, decide_eq_true hbx]
    rw [hpq]
    have hqb :
        ¬ ((n :: ns).all (fun n2 => n2.length ≤ b.length) = true) := by
      simp only [List.all_cons, Bool.and_eq_true, decide_eq_true_eq]
      intro h
      exact Nat.not_le.mpr hl h.1
    exact List.find?_cons_of_neg _ hqb
  · rw [if_neg hl]
    have hn : n.length ≤ b.length := Nat.le_of_not_lt hl
    unfold argmaxEarliest
    have hpq :
        (fun x : String => (b :: n :: ns).all (fun n2 => n2.length ≤ x.length))
          = fun x : String => (b :: ns).all (fun n2 => n2.length ≤ x.length) := by
      funext x
      simp only [List.all_cons]
      cases hb : decide (b.length ≤ x.length) with
      | false => rw [Bool.false_and, Bool.false_and]
      | true =>
          have hbx : b.length ≤ x.length := of_decide_eq_true hb
          have hnx : n.length ≤ x.length := Nat.le_trans hn hbx
          rw [Bool.true_and, Bool.true_and, decide_eq_true hnx,
              Bool.true_and]
    rw [hpq]
    by_cases hrb : ((b :: ns).all (fun n2 => n2.length ≤ b.length) = true)
    · rw [List.find?_cons_of_pos (n :: ns) hrb, List.find?_cons_of_pos ns hrb]
    · have hrn :
          ¬ ((b :: ns).all (fun n2 => n2.length ≤ n.length) = true) := by
        intro h
        apply hrb
        simp only [List.all_cons, Bool.and_eq_true, decide_eq_true_eq,
                   List.all_eq_true] at h ⊢
        exact ⟨Nat.le_refl _, fun a ha => Nat.le_trans (h.2 a ha) hn⟩
      rw [List.find?_cons_of_neg (n :: ns) hrb, List.find?_cons_of_neg ns hrn,
          List.find?_cons_of_neg ns hrb]

theorem bestAux_some_eq_argmax (ns : List String) :
    ∀ b : String, bestAux (some b) ns = argmaxEarliest (b :: ns) := by
  induction ns with
  | nil =>
      intro b
      simp [bestAux, argmaxEarliest, List.find?]
  | cons n ns ih =>
      intro b
      show bestAux (if b.length < n.length then some n else some b) ns = _
      rw [argmaxEarliest_merge]
      by_cases hl : b.length < n.length
      · rw [if_pos hl, if_pos hl, ih n]
      · rw [if_neg hl, if_neg hl, ih b]

theorem bestAux_none_eq_argmax (ns : List String) :
    bestAux none ns = argmaxEarliest ns := by
  cases ns with
  | nil => rfl
  | cons n ns =>
      show bestAux (some n) ns = _
      exact bestAux_some_eq_argmax ns n

/-! ## Provenance of the values stored in the mapping -/

theorem lookupM_foldl_mem (cs : List (String × String)) :
    ∀ (m : SMap) (s n : String),
      lookupM (cs.foldl assignPair m) s = some n →
      lookupM m s = some n ∨ (s, n) ∈ cs := by
  induction cs with
  | nil => intro m s n h; exact Or.inl h
  | cons c cs ih =>
      intro m s n h
      rcases ih (assignPair m c) s n h with h1 | h2
      · obtain ⟨t, nn⟩ := c
        by_cases hts : t = s
        · subst hts
          have h1' : lookupM (assignOne m t nn) t = some n := h1
          rw [lookupM_assignOne_self] at h1'
          cases hm : lookupM m t with
          | none =>
              rw [hm] at h1'
              have h2 : some nn = some n := h1'
              have : nn = n := by injection h2
              exact Or.inr (this ▸ List.mem_cons_self _ _)
          | some old =>
              rw [hm] at h1'
              have h2 : (if old.length < nn.length then some nn else some old)
                  = some n := h1'
              by_cases hlen : old.length < nn.length
              · rw [if_pos hlen] at h2
                have : nn = n := by injection h2
                exact Or.inr (this ▸ List.mem_cons_self _ _)
              · rw [if_neg hlen] at h2
                exact Or.inl h2
        · have h1' : lookupM (assignOne m t nn) s = some n := h1
          rw [lookupM_assignOne_ne m t nn s (fun hh => hts hh.symm)] at h1'
          exact Or.inl h1'
      · exact Or.inr (List.mem_cons_of_mem c h2)

theorem mem_candidatePairs_valid (utts : List Utterance) (s n : String)
    (h : (s, n) ∈ candidatePairs utts) : _es_nombre_real n = true := by
  unfold candidatePairs at h
  rw [List.mem_flatMap] at h
  obtain ⟨uv, _, hin⟩ := h
  rw [List.mem_map] at hin
  obtain ⟨a, ha, heq⟩ := hin
  have han : a = n := congrArg Prod.snd heq
  subst han
  exact (List.mem_filter.mp ha).2

/-- Every name the extraction stores has passed the Name Validator. -/
theorem lookup_extract_valid {α : Type} (utts : List Utterance)
    (es : List α) (s n : String)
    (h : lookupM (extract_speaker_names_from_entities utts es) s = some n) :
    _es_nombre_real n = true := by
  rw [extract_eq_foldl_pairs] at h
  rcases lookupM_foldl_mem (candidatePairs utts) [] s n h with h1 | h2
  · cases h1
  · exact mem_candidatePairs_valid utts s n h2

/-! ## The validator characterised -/

theorem es_nombre_real_iff (texto : String) :
    _es_nombre_real texto = true ↔
      (1 ≤ (pySplit texto).length ∧ (pySplit texto).length ≤ 5 ∧
       (∀ p ∈ pySplit texto, lowerStr p ∉ STOP_WORDS) ∧
       ∃ p ∈ pySplit texto, p ∈ APELLIDOS ∨ p ∈ NOMBRES_PROPIOS) := by
  unfold _es_nombre_real
  by_cases hA : ((pySplit texto).length > 5 || (pySplit texto).length == 0) = true
  · rw [if_pos hA]
    simp only [Bool.or_eq_true, decide_eq_true_eq, beq_iff_eq] at hA
    constructor
    · intro h; cases h
    · rintro ⟨h1, h2, -, -⟩
      rcases hA with h | h
      · omega
      · omega
  · rw [if_neg hA]
    simp only [Bool.or_eq_true, decide_eq_true_eq, beq_iff_eq, not_or] at hA
    obtain ⟨hA1, hA2⟩ := hA
    by_cases hB :
        ((pySplit texto).any fun p => STOP_WORDS.contains (lowerStr p)) = true
    · rw [if_pos hB]
      simp only [List.any_eq_true, List.contains, List.elem_eq_mem,
                 decide_eq_true_eq] at hB
      obtain ⟨p, hp, hps⟩ := hB
      constructor
      · intro h; cases h
      · rintro ⟨-, -, hstop, -⟩
        exact absurd hps (hstop p hp)
    · rw [if_neg hB]
      simp only [List.any_eq_true, List.contains, List.elem_eq_mem,
                 decide_eq_true_eq, not_exists, not_and] at hB
      constructor
      · intro h
        refine ⟨by omega, by omega, fun p hp => hB p hp, ?_⟩
        simp only [Bool.or_eq_true, List.any_eq_true, List.contains,
                   List.elem_eq_mem, decide_eq_true_eq] at h
        rcases h with ⟨p, hp, hpa⟩ | ⟨p, hp, hpn⟩
        · exact ⟨p, hp, Or.inl hpa⟩
        · exact ⟨p, hp, Or.inr hpn⟩
      · rintro ⟨-, -, -, p, hp, hpl⟩
        simp only [Bool.or_eq_true, List.any_eq_true, List.contains,
                   List.elem_eq_mem, decide_eq_true_eq]
        rcases hpl with hpa | hpn
        · exact Or.inl ⟨p, hp, hpa⟩
        · exact Or.inr ⟨p, hp, hpn⟩

/-! ## Behaviour when no pattern matches -/

theorem procesaPatrones_of_no_match (text spk : String)
    (h : ∀ p ∈ PATRONES_CESION, reSearch p text.data = none) :
    ∀ m : SMap, procesaPatrones text spk m = m := by
  unfold procesaPatrones
  have hgen : ∀ l : List RE, (∀ p ∈ l, reSearch p text.data = none) →
      ∀ m : SMap,
        l.foldl
          (fun m patron =>
            match searchGroup1 patron text with
            | none => m
            | some nombre_raw =>
                if _es_nombre_real nombre_raw then
                  assignOne m spk nombre_raw
                else m)
          m = m := by
    intro l
    induction l with
    | nil => intro _ m; rfl
    | cons p l ih =>
        intro hl m
        have hp : searchGroup1 p text = none := by
          unfold searchGroup1
          rw [hl p (List.mem_cons_self _ _)]
        rw [List.foldl_cons, hp]
        exact ih (fun q hq => hl q (List.mem_cons_of_mem p hq)) m
  exact hgen PATRONES_CESION h

theorem extract_of_no_match {α : Type} (utts : List Utterance) (es : List α)
    (h : ∀ u ∈ utts, ∀ p ∈ PATRONES_CESION, reSearch p u.text.data = none) :
    extract_speaker_names_from_entities utts es = [] := by
  have go : ∀ l : List Utterance,
      (∀ u ∈ l, ∀ p ∈ PATRONES_CESION, reSearch p u.text.data = none) →
      extractGo l [] = [] := by
    intro l
    induction l with
    | nil => intro _; rfl
    | cons u rest ih =>
        intro hl
        cases rest with
        | nil => rfl
        | cons next rest2 =>
            show extractGo (next :: rest2)
                (procesaPatrones u.text next.speaker []) = []
            rw [procesaPatrones_of_no_match u.text next.speaker
                  (hl u (List.mem_cons_self _ _)) []]
            exact ih (fun v hv => hl v (List.mem_cons_of_mem u hv))
  exact go utts h

/-- The last utterance's candidates never reach the mapping: the extraction
result does not depend on the last utterance's text, only on its speaker. -/
theorem extractGo_snoc_text (u u2 : Utterance) (hsp : u.speaker = u2.speaker) :
    ∀ (l : List Utterance) (m : SMap),
      extractGo (l ++ [u]) m = extractGo (l ++ [u2]) m := by
  intro l
  induction l with
  | nil => intro m; rfl
  | cons x l ih =>
      intro m
      cases l with
      | nil =>
          show procesaPatrones x.text u.speaker m =
               procesaPatrones x.text u2.speaker m
          rw [hsp]
      | cons y l2 =>
          show extractGo ((y :: l2) ++ [u]) (procesaPatrones x.text y.speaker m)
             = extractGo ((y :: l2) ++ [u2]) (procesaPatrones x.text y.speaker m)
          exact ih _

/-! # The claims -/

/-- **C1.**  For every whitespace-trimmed captured span, the Name Validator
accepts it if and only if its word count is between 1 and 5, no constituent
word lower-cased is a member of the stopword set, and at least one
constituent word exactly (case- and accent-sensitively) matches a member of
the surname set or the first-name set; in particular a span with no
stopword hit but also no lexicon hit is rejected. -/
theorem C1_validator_accepts_iff (texto : String) :
    _es_nombre_real texto = true ↔
      (1 ≤ (pySplit texto).length ∧ (pySplit texto).length ≤ 5 ∧
       (∀ p ∈ pySplit texto, lowerStr p ∉ STOP_WORDS) ∧
       ∃ p ∈ pySplit texto, p ∈ APELLIDOS ∨ p ∈ NOMBRES_PROPIOS) :=
  es_nombre_real_iff texto

/-- **C2.**  Refuted on the code: because `re.search` is called with
`re.IGNORECASE`, the flag also applies to the character classes of the
capture group `_NOM`, so the captured span can contain words that do not
start with an upper-case letter and are not connectors.  On
`"cede la palabra a juan pérez"` the third pattern captures
`"juan pérez"`, whose word `"juan"` starts with a letter rejected by the
upper-case class and is none of `"de"`/`"del"`/`"la"`; and such a
mixed-case capture even reaches the final mapping. -/
theorem C2_ignorecase_lowercase_capture :
    searchGroup1 PATRON_CEDE "cede la palabra a juan pérez" =
      some "juan pérez" ∧
    pySplit "juan pérez" = ["juan", "pérez"] ∧
    mayusNom 'j' = false ∧
    ("juan" ≠ "de" ∧ "juan" ≠ "del" ∧ "juan" ≠ "la") ∧
    extract_speaker_names_from_entities
      [⟨"A", "cede la palabra a Juan pérez"⟩, ⟨"B", "claro"⟩]
      ([] : List Unit) = [("B", "Juan pérez")] :=
  ⟨rfl, rfl, rfl, ⟨by decide, by decide, by decide⟩, rfl⟩

/-- **C3.**  The in-loop rule overwrites an existing mapping exactly when
the existing name's length is strictly less than the new candidate's; and
consequently the final mapping of each speaker is the textually longest
valid candidate that targeted it (the earlier one on equal lengths),
independently of discovery order. -/
theorem C3_longest_candidate_wins {α : Type} (utts : List Utterance)
    (es : List α) (s : String) :
    (∀ (m : SMap) (nombre : String),
      lookupM (assignOne m s nombre) s =
        match lookupM m s with
        | none => some nombre
        | some old =>
            if old.length < nombre.length then some nombre else some old) ∧
    lookupM (extract_speaker_names_from_entities utts es) s =
      argmaxEarliest (namesTargeting utts s) := by
  refine ⟨fun m nombre => lookupM_assignOne_self m s nombre, ?_⟩
  rw [extract_eq_foldl_pairs, lookupM_foldl_assignPair]
  exact bestAux_none_eq_argmax _

/-- **C4.**  A candidate produced by the last utterance is discarded (the
result does not even depend on the last utterance's text, and a
single-utterance list yields an empty mapping), and every candidate of
utterance `i` with `i + 1 < n` is attributed to the speaker of utterance
`i + 1` (the extraction equals the fold over the pairs of each utterance
with the next utterance's speaker). -/
theorem C4_last_discarded_next_attributed {α : Type} (utts : List Utterance)
    (u : Utterance) (t2 : String) (es : List α) :
    extract_speaker_names_from_entities (utts ++ [u]) es =
      extract_speaker_names_from_entities (utts ++ [⟨u.speaker, t2⟩]) es ∧
    extract_speaker_names_from_entities utts es =
      (candidatePairs utts).foldl assignPair [] ∧
    extract_speaker_names_from_entities [u] es = [] :=
  ⟨extractGo_snoc_text u ⟨u.speaker, t2⟩ rfl utts [],
   extract_eq_foldl_pairs utts es, rfl⟩

/-- **C5.**  `total_speakers` equals the number of distinct speaker
identifiers occurring in the input list, regardless of how many speakers
were named. -/
theorem C5_total_speakers_distinct {α : Type} (utts : List Utterance)
    (es : List α) :
    (build_success_payload utts es).total_speakers =
      ((utts.map (·.speaker)).toFinset).card := by
  show (utts.map (·.speaker)).dedup.length = _
  rw [List.card_toFinset]

/-- **C6.**  Refuted on the code: a record missing its speaker field is
not rejected with a "malformed utterance" error — the extraction and the
formatter silently substitute defaults (`''`, `'?'`) and succeed, and the
only failure that can occur is a bare `KeyError` (from
`utterances[i+1]['speaker']` or from the `total_speakers` count), not a
distinct malformed-utterance error. -/
theorem C6_malformed_silently_defaulted :
    rawExtract [⟨none, some "hola"⟩] ([] : List Unit) = Except.ok [] ∧
    rawFormat [⟨none, some "hola"⟩] [] = "Speaker ?: hola" ∧
    rawTotalSpeakers [⟨none, some "hola"⟩] =
      Except.error "KeyError: speaker" ∧
    rawExtract [⟨some "A", some "cede la palabra a Juan Pérez"⟩,
                ⟨none, some "adelante"⟩] ([] : List Unit) =
      Except.error "KeyError: speaker" :=
  ⟨rfl, rfl, rfl, rfl⟩

/-- **C7.**  When no utterance's text matches any cession pattern, the
mapping is empty and every formatted line uses the synthesized
`"Speaker <id>"` label, lines separated by a blank line. -/
theorem C7_no_match_empty_mapping {α : Type} (utts : List Utterance)
    (es : List α)
    (h : ∀ u ∈ utts, ∀ p ∈ PATRONES_CESION, reSearch p u.text.data = none) :
    extract_speaker_names_from_entities utts es = [] ∧
    format_transcript_with_speakers utts
        (extract_speaker_names_from_entities utts es) =
      String.intercalate "\n\n"
        (utts.map (fun u => "Speaker " ++ u.speaker ++ ": " ++ u.text)) := by
  have he := extract_of_no_match utts es h
  refine ⟨he, ?_⟩
  rw [he]
  rfl

/-- Witness for C7 at a concrete two-utterance transcript. -/
theorem C7_no_match_witness :
    extract_speaker_names_from_entities
        [⟨"A", "hola"⟩, ⟨"B", "buenos dias"⟩] ([] : List Unit) = [] ∧
    format_transcript_with_speakers [⟨"A", "hola"⟩, ⟨"B", "buenos dias"⟩]
        (extract_speaker_names_from_entities
          [⟨"A", "hola"⟩, ⟨"B", "buenos dias"⟩] ([] : List Unit)) =
      String.intercalate "\n\n"
        ([⟨"A", "hola"⟩, ⟨"B", "buenos dias"⟩].map
          (fun u : Utterance => "Speaker " ++ u.speaker ++ ": " ++ u.text)) :=
  C7_no_match_empty_mapping _ _ (by decide)

/-- **C8.**  Invariant: every name stored in the mapping has passed the
Name Validator; hence it contains no stopword (so in particular it is not
made solely of stopwords) and contains at least one lexicon word. -/
theorem C8_mapping_values_validated {α : Type} (utts : List Utterance)
    (es : List α) (s n : String)
    (h : lookupM (extract_speaker_names_from_entities utts es) s = some n) :
    _es_nombre_real n = true ∧
    (∀ w ∈ pySplit n, lowerStr w ∉ STOP_WORDS) ∧
    ∃ w ∈ pySplit n, w ∈ APELLIDOS ∨ w ∈ NOMBRES_PROPIOS := by
  have hv := lookup_extract_valid utts es s n h
  have hiff := (es_nombre_real_iff n).mp hv
  exact ⟨hv, hiff.2.2.1, hiff.2.2.2⟩

/-- Witness for C8: a transcript whose extraction stores `"Juan Pérez"`. -/
theorem C8_mapping_values_validated_witness :
    lookupM
        (extract_speaker_names_from_entities
          [⟨"A", "cede la palabra a Juan Pérez"⟩, ⟨"B", "gracias"⟩]
          ([] : List Unit)) "B" = some "Juan Pérez" ∧
    (_es_nombre_real "Juan Pérez" = true ∧
     (∀ w ∈ pySplit "Juan Pérez", lowerStr w ∉ STOP_WORDS) ∧
     ∃ w ∈ pySplit "Juan Pérez", w ∈ APELLIDOS ∨ w ∈ NOMBRES_PROPIOS) :=
  ⟨rfl,
   C8_mapping_values_validated
     [⟨"A", "cede la palabra a Juan Pérez"⟩, ⟨"B", "gracias"⟩]
     ([] : List Unit) "B" "Juan Pérez" rfl⟩

/-- **C9.**  The attribution pass is a pure function of the utterances
alone: the `entities` argument never influences the mapping, the payload,
and the formatter applied twice to the same arguments yields the same
string. -/
theorem C9_entities_independent_deterministic {α β : Type}
    (utts : List Utterance) (e1 : List α) (e2 : List β) (m : SMap) :
    extract_speaker_names_from_entities utts e1 =
      extract_speaker_names_from_entities utts e2 ∧
    build_success_payload utts e1 = build_success_payload utts e2 ∧
    format_transcript_with_speakers utts m =
      format_transcript_with_speakers utts m :=
  ⟨rfl, rfl, rfl⟩

/-- **C10.**  The connectors `"de"`, `"del"`, `"la"` are stopwords, so no
name stored in the mapping ever contains one of them as a word (even
case-insensitively). -/
theorem C10_no_connector_stored {α : Type} (utts : List Utterance)
    (es : List α) (s n : String)
    (h : lookupM (extract_speaker_names_from_entities utts es) s = some n) :
    ("de" ∈ STOP_WORDS ∧ "del" ∈ STOP_WORDS ∧ "la" ∈ STOP_WORDS) ∧
    ∀ w ∈ pySplit n,
      lowerStr w ≠ "de" ∧ lowerStr w ≠ "del" ∧ lowerStr w ≠ "la" := by
  have hv := lookup_extract_valid utts es s n h
  have hstop := ((es_nombre_real_iff n).mp hv).2.2.1
  refine ⟨⟨by decide, by decide, by decide⟩, fun w hw => ?_⟩
  have hns := hstop w hw
  refine ⟨?_, ?_, ?_⟩ <;> intro heq <;> apply hns <;> rw [heq] <;> decide

/-- Witness for C10: a stored name, none of whose words is a connector. -/
theorem C10_no_connector_stored_witness :
    lookupM
        (extract_speaker_names_from_entities
          [⟨"A", "cede la palabra a María González"⟩, ⟨"B", "bien"⟩]
          ([] : List Unit)) "B" = some "María González" ∧
    ∀ w ∈ pySplit "María González",
      lowerStr w ≠ "de" ∧ lowerStr w ≠ "del" ∧ lowerStr w ≠ "la" :=
  ⟨rfl,
   (C10_no_connector_stored
     [⟨"A", "cede la palabra a María González"⟩, ⟨"B", "bien"⟩]
     ([] : List Unit) "B" "María González" rfl).2⟩

end Cabildo
